import Mathlib

/-!
Shallow embedding of the music-manager TUI core: the selectable lists
(`DirListState`, the metadata list inside `Song`), the contextual action
registry (`Actions`), the track record (`Song` in both its `data/song.rs`
and `edit/app/song.rs` variants) and the modal editor state machine
(`App` from `edit/app/mod.rs`).

Rust `usize` arithmetic that can underflow (`len - 1` on an empty list) is
embedded by returning `Option` (`none` = panic), as are all `unwrap` calls.
Filesystem and tag-file effects are passed in as an explicit environment
(`Env`); log macros (`error!`, `warn!`, `info!`) are embedded as emitted
`LogEvent` values where a claim needs them.
-/

namespace MusicManager

/-- Embedding of Rust `str::split(sep)` at the character-list level:
splits on every occurrence of `sep`, keeping empty segments, and always
returns at least one segment. -/
def splitCharList (sep : Char) : List Char → List (List Char)
  | [] => [[]]
  | c :: rest =>
    let r := splitCharList sep rest
    if c = sep then [] :: r
    else
      match r with
      | [] => [[c]]
      | g :: gs => (c :: g) :: gs

/-- Embedding of Rust `str::split(sep)` on strings. -/
def rustSplit (sep : Char) (s : String) : List String :=
  (splitCharList sep s.toList).map (fun cs => String.mk cs)

/-- Joining a list of character lists with a separator character; used as
the spec-side inverse of `splitCharList`. -/
def joinCharList (sep : Char) : List (List Char) → List Char
  | [] => []
  | [g] => g
  | g :: gs => g ++ sep :: joinCharList sep gs

/-- Spec-side encoding "artists joined with `:`" used by the round-trip
claim. -/
def joinColon (l : List String) : String :=
  String.mk (joinCharList ':' (l.map String.toList))

/-- Embedding of Rust `str::contains(pat)` (substring test). -/
def rustContains (s pat : String) : Bool :=
  decide (pat.toList <:+: s.toList)

/-- Model of `std::path::Path::file_name`: the last non-empty component,
absent for paths ending in `..` or with no component (external library,
modelled only as far as the repository exercises it). -/
def pathFileName (p : String) : Option String :=
  match ((rustSplit '/' p).filter (fun c => !c.isEmpty)).getLast? with
  | some c => if c = ".." then none else some c
  | none => none

/-- Model of `std::path::PathBuf::set_file_name`: replaces the final path
component. -/
def setFileName (p name : String) : String :=
  match (rustSplit '/' p).dropLast with
  | [] => name
  | ds => String.intercalate "/" ds ++ "/" ++ name

/-- Model of `metaflac::Tag` as a property store from vorbis-comment key to
its ordered list of values (spec §6: a key-to-string-list property store). -/
structure Tag where
  entries : List (String × List String)
  deriving DecidableEq, Repr

/-- `metaflac::Tag::new()`. -/
def Tag.new : Tag := ⟨[]⟩

/-- `metaflac::Tag::set_vorbis`: replaces the values bound to `k`. -/
def Tag.setVorbis (t : Tag) (k : String) (vs : List String) : Tag :=
  ⟨(t.entries.filter (fun e => !(e.1 == k))) ++ [(k, vs)]⟩

/-- `metaflac::Tag::get_vorbis`: the values bound to `k`, absent when the
key is missing. -/
def Tag.getVorbis (t : Tag) (k : String) : Option (List String) :=
  (t.entries.find? (fun e => e.1 == k)).map (fun e => e.2)

/-- Log events emitted through the `log` macros, kept only where a claim
observes them. -/
inductive LogEvent
  | renameErrorLog
  | tagReadErrorLog
  | setFilenameLog (name : String)
  | noIndexWarnLog
  deriving DecidableEq, Repr

/-- Environment supplying the outcomes of the filesystem / tag-file effects
(`std::fs::rename`, `Tag::read_from_path`, `Tag::write_to_path`):
`none` embeds the `Err` case. -/
structure Env where
  readTagAt : String → Option Tag
  renameFile : String → String → Option Unit
  writeTagAt : String → Option Unit

/-- Key events (`inputs/key.rs`, reconstructed from every constructor the
source files match on). -/
inductive Key
  | Enter
  | Esc
  | Backspace
  | Up
  | Down
  | Left
  | Right
  | PageUp
  | PageDown
  | Char (c : Char)
  | Ctrl (c : Char)
  | Alt (c : Char)
  deriving DecidableEq, Repr

/-- `Action` from `tui/app/actions.rs`, constructors in declaration order
(the order `strum::EnumIter` iterates in). -/
inductive Action
  | Quit
  | SwitchToLogWidget
  | SwitchToPreviousWidget
  | SelectDown
  | SelectUp
  | Enter
  | SwitchToDirListWidget
  | LogToggleHideSelector
  | LogToggleFocus
  | LogSelectPreviousTarget
  | LogSelectNextTarget
  | LogReduceShown
  | LogIncreaseShown
  | LogDecreaseCapture
  | LogIncreaseCapture
  | LogPageUp
  | LogPageDown
  | LogExitPageMode
  | LogToggleHideTargets
  | SaveTagsToFile
  deriving DecidableEq, Repr

/-- `Action::iter()` (strum `EnumIter`): every variant in declaration
order. -/
def Action.iterList : List Action :=
  [.Quit, .SwitchToLogWidget, .SwitchToPreviousWidget, .SelectDown, .SelectUp,
   .Enter, .SwitchToDirListWidget, .LogToggleHideSelector, .LogToggleFocus,
   .LogSelectPreviousTarget, .LogSelectNextTarget, .LogReduceShown,
   .LogIncreaseShown, .LogDecreaseCapture, .LogIncreaseCapture, .LogPageUp,
   .LogPageDown, .LogExitPageMode, .LogToggleHideTargets, .SaveTagsToFile]

/-- `Action::keys` from `tui/app/actions.rs`. -/
def Action.keys : Action → List Key
  | .Quit => [.Ctrl 'c', .Char 'q']
  | .LogToggleHideSelector => [.Char 'h']
  | .LogToggleFocus => [.Char 'f']
  | .LogSelectPreviousTarget => [.Up]
  | .LogSelectNextTarget => [.Down]
  | .LogReduceShown => [.Left]
  | .LogIncreaseShown => [.Right]
  | .LogIncreaseCapture => [.Char '+']
  | .LogDecreaseCapture => [.Char '-']
  | .LogPageUp => [.PageUp]
  | .LogPageDown => [.PageDown]
  | .LogExitPageMode => [.Esc]
  | .LogToggleHideTargets => [.Char ' ']
  | .SwitchToLogWidget => [.Ctrl 'l']
  | .SwitchToPreviousWidget => [.Esc]
  | .SelectDown => [.Char 'j']
  | .SelectUp => [.Char 'k']
  | .Enter => [.Enter]
  | .SaveTagsToFile => [.Char 's']
  | .SwitchToDirListWidget => [.Char 'd']

/-- The contextual action registry `Actions` (a `Vec<Action>`). -/
abbrev Actions := List Action

/-- `Actions::find`: iterates `Action::iter()` (declaration order), keeps
the enabled actions, returns the first whose bound keys contain `key`. -/
def Actions.find (enabled : Actions) (key : Key) : Option Action :=
  (Action.iterList.filter (fun a => enabled.contains a)).find?
    (fun a => a.keys.contains key)

/-- Spec-side resolver following the spec's words: "the first enabled
action (in registration order) whose bound-key set contains `key`". -/
def resolveRegistrationOrder (enabled : Actions) (key : Key) : Option Action :=
  enabled.find? (fun a => a.keys.contains key)

/-- `tui::widgets::ListState`, modelled by its selection (the scroll offset
is render-only). -/
structure ListState where
  selected : Option Nat
  deriving DecidableEq, Repr

/-- `ListState::default()`. -/
def ListState.default : ListState := ⟨none⟩

/-- Selection update of `DirListState::next` / `Song::next` (the two are
textually identical): from no selection select index 0; from `some i`,
`if i >= len - 1 \x7b 0 \x7d else \x7b i + 1 \x7d`; the `usize`
subtraction `len - 1` panics (`none`) on an empty list. -/
def selNext (len : Nat) : Option Nat → Option (Option Nat)
  | some i =>
    if len = 0 then none
    else some (some (if i ≥ len - 1 then 0 else i + 1))
  | none => some (some 0)

/-- Selection update of `DirListState::previous` / `Song::previous`: from
no selection select index 0; from `some 0` wrap to `len - 1` (panicking on
an empty list); from `some (i+1)` select `i`. -/
def selPrevious (len : Nat) : Option Nat → Option (Option Nat)
  | some i =>
    if i = 0 then
      if len = 0 then none else some (some (len - 1))
    else some (some (i - 1))
  | none => some (some 0)

/-- `DirListState` from `tui/app/dir.rs` (the directory browse list; its
twin module is used by the edit TUI). -/
structure DirListState where
  current_dir_path : String
  current_dir_file_names : List String
  current_dir_file_paths : List String
  state : ListState
  deriving DecidableEq, Repr

/-- `DirListState::next`. -/
def DirListState.next (d : DirListState) : Option DirListState :=
  (selNext d.current_dir_file_names.length d.state.selected).map
    (fun s => { d with state := ⟨s⟩ })

/-- `DirListState::previous`. -/
def DirListState.previous (d : DirListState) : Option DirListState :=
  (selPrevious d.current_dir_file_names.length d.state.selected).map
    (fun s => { d with state := ⟨s⟩ })

/-- `DirListState::set_items`: replaces names/paths, resetting the
selection, only when they differ from the current ones by value. -/
def DirListState.set_items (d : DirListState) (names : List String)
    (paths : List String) : DirListState :=
  let d1 :=
    if d.current_dir_file_names ≠ names then
      { d with current_dir_file_names := names, state := ListState.default }
    else d
  if d1.current_dir_file_paths ≠ paths then
    { d1 with current_dir_file_paths := paths, state := ListState.default }
  else d1

/-- The `"None"` placeholder list used when the artist list is absent. -/
def nonePlaceholder : List String := ["None"]

/-- The artists display line body: `populate_list_items` appends each
artist and then a `:` separator, except after an artist equal to the
literal `"None"` (the `continue` in the loop). -/
def artistLineFold (artists : Option (List String)) : String :=
  (artists.getD nonePlaceholder).foldl
    (fun acc a => (acc ++ a) ++ (if a = "None" then "" else ":")) "Artists: "

namespace Data

/-- `MetadataSource` from `data/song.rs`. -/
inductive MetadataSource
  | File
  | Database
  deriving DecidableEq, Repr

/-- `Song` from `data/song.rs` (the track record). -/
structure Song where
  id : Option Nat
  file_path : String
  file_name : String
  tag : Tag
  title : Option String
  artists : Option (List String)
  album : Option String
  genre : Option String
  youtube_id : Option String
  thumbnail_url : Option String
  items : List String
  state : ListState
  initialized : Bool
  metadata_source : MetadataSource
  deriving DecidableEq, Repr

/-- `Song::default()`. -/
def Song.default : Song :=
  { id := none, file_path := "", file_name := "", tag := Tag.new,
    title := none, artists := none, album := none, genre := none,
    youtube_id := none, thumbnail_url := none, items := [],
    state := ListState.default, initialized := false,
    metadata_source := .File }

/-- `Song::init`: populates title/artists/album from the tag block;
`title.next().unwrap()` / `album.next().unwrap()` panic (`none`) when the
property is present with no value. -/
def Song.init (s : Song) : Option Song :=
  match s.tag.getVorbis "TITLE", s.tag.getVorbis "ALBUM" with
  | some [], _ => none
  | _, some [] => none
  | t, al =>
    some { s with
      title := t.map (fun l => l.headD ""),
      artists := s.tag.getVorbis "ARTIST",
      album := al.map (fun l => l.headD ""),
      initialized := true }

/-- `Song::populate_list_items`: the four display lines in fixed order. -/
def Song.populate_list_items (s : Song) : Song :=
  { s with items :=
      ["File name: " ++ s.file_name,
       "Title: " ++ s.title.getD "None",
       artistLineFold s.artists,
       "Album: " ++ s.album.getD "None"] }

/-- `Song::read_music_file`. -/
def Song.read_music_file (env : Env) (path : String) : Option Song :=
  match env.readTagAt path with
  | none => none
  | some tag =>
    match pathFileName path with
    | none => none
    | some name =>
      ((({ Song.default with file_path := path, file_name := name, tag := tag } :
          Song).init).map Song.populate_list_items)

/-- `Song::from_database`: decodes the artist string by splitting on `:`
and dropping empty segments; `title.clone().unwrap()` and
`artists.clone().unwrap()` panic (`none`) when absent. -/
def Song.from_database (id : Option Nat) (path : String) (file_name : String)
    (title : Option String) (artists : Option String) (album : Option String)
    (genre : Option String) (youtube_id : Option String)
    (thumbnail_url : Option String) : Option Song :=
  let artistsV : Option (List String) :=
    artists.map (fun astr => (rustSplit ':' astr).filter (fun a => !a.isEmpty))
  match title, artistsV with
  | some t, some av =>
    let tag := (Tag.new.setVorbis "TITLE" [t]).setVorbis "ARTIST" av
    let tag :=
      match album with
      | some al => tag.setVorbis "ALBUM" [al]
      | none => tag
    some (({ Song.default with
      id := id, file_path := path, file_name := file_name, tag := tag,
      title := some t, artists := some av, album := album, genre := genre,
      youtube_id := youtube_id, thumbnail_url := thumbnail_url,
      initialized := false, metadata_source := .Database } : Song).populate_list_items)
  | _, _ => none

/-- `Song::edit_title`. -/
def Song.edit_title (s : Song) (new_value : String) : Song :=
  { s with title := some new_value, tag := s.tag.setVorbis "TITLE" [new_value] }

/-- `Song::edit_artist` (`data/song.rs` variant): splits on `:`, skipping
empty segments. -/
def Song.edit_artist (s : Song) (new_value : String) : Song :=
  let artists := (rustSplit ':' new_value).filter (fun a => !a.isEmpty)
  { s with tag := s.tag.setVorbis "ARTIST" artists, artists := some artists }

/-- `Song::edit_album`. -/
def Song.edit_album (s : Song) (new_album_value : String) : Song :=
  { s with tag := s.tag.setVorbis "ALBUM" [new_album_value], album := some new_album_value }

/-- `Song::edit_filename`: appends `.flac` when missing, renames the file
(logging the error and leaving the record untouched on failure), then
re-reads the tag block from the new path (logging the error and keeping
the old tag on failure). -/
def Song.edit_filename (env : Env) (s : Song) (new0 : String) :
    Option (Song × List LogEvent) :=
  let new_file_name := if rustContains new0 "flac" then new0 else new0 ++ ".flac"
  let new_file_path := setFileName s.file_path new_file_name
  match env.renameFile s.file_path new_file_path with
  | some _ =>
    let s1 := { s with file_name := new_file_name, file_path := new_file_path }
    match env.readTagAt s1.file_path with
    | some tag =>
      (({ s1 with tag := tag } : Song).init).map
        (fun s2 => (s2, [LogEvent.setFilenameLog new_file_name]))
    | none =>
      some (s1, [LogEvent.setFilenameLog new_file_name, LogEvent.tagReadErrorLog])
  | none => some (s, [LogEvent.renameErrorLog])

/-- `Song::edit`: commits `new_value` against the currently selected
metadata line (`state.selected().unwrap_or(10)`). -/
def Song.edit (env : Env) (s : Song) (new_value : String) :
    Option (Song × List LogEvent) :=
  match s.state.selected.getD 10 with
  | 0 => (s.edit_filename env new_value).map
      (fun r => (r.1.populate_list_items, r.2))
  | 1 => some ((s.edit_title new_value).populate_list_items, [])
  | 2 => some ((s.edit_artist new_value).populate_list_items, [])
  | 3 => some ((s.edit_album new_value).populate_list_items, [])
  | 10 => some (s, [LogEvent.noIndexWarnLog])
  | _ => some (s, [])

/-- `Song::write_tag_changes`. -/
def Song.write_tag_changes (env : Env) (s : Song) : Option Unit :=
  env.writeTagAt s.file_path

/-- `Song::equate`: structural equality over the user-visible fields. -/
def Song.equate (song_left song_right : Song) : Bool :=
  song_left.title == song_right.title
    && song_left.artists == song_right.artists
    && song_left.album == song_right.album
    && song_left.genre == song_right.genre
    && song_left.youtube_id == song_right.youtube_id
    && song_left.thumbnail_url == song_right.thumbnail_url
    && song_left.file_name == song_right.file_name
    && song_left.file_path == song_right.file_path

/-- `Song::next` (the metadata list cursor). -/
def Song.next (s : Song) : Option Song :=
  (selNext s.items.length s.state.selected).map (fun sel => { s with state := ⟨sel⟩ })

/-- `Song::previous`. -/
def Song.previous (s : Song) : Option Song :=
  (selPrevious s.items.length s.state.selected).map (fun sel => { s with state := ⟨sel⟩ })

end Data

namespace EditTui

/-- `Song` from `edit/app/song.rs` (the edit-TUI copy of the track
record: no id / genre / youtube_id / thumbnail_url fields). -/
structure Song where
  file_path : String
  file_name : String
  tag : Tag
  title : Option String
  artists : Option (List String)
  album : Option String
  items : List String
  state : ListState
  initialized : Bool
  deriving DecidableEq, Repr

/-- `Song::default()` (`edit/app/song.rs`). -/
def Song.default : Song :=
  { file_path := "", file_name := "", tag := Tag.new, title := none,
    artists := none, album := none, items := [],
    state := ListState.default, initialized := false }

/-- `Song::init` (`edit/app/song.rs`), identical to the data-module
variant. -/
def Song.init (s : Song) : Option Song :=
  match s.tag.getVorbis "TITLE", s.tag.getVorbis "ALBUM" with
  | some [], _ => none
  | _, some [] => none
  | t, al =>
    some { s with
      title := t.map (fun l => l.headD ""),
      artists := s.tag.getVorbis "ARTIST",
      album := al.map (fun l => l.headD ""),
      initialized := true }

/-- `Song::populate_list_items` (`edit/app/song.rs`), identical to the
data-module variant. -/
def Song.populate_list_items (s : Song) : Song :=
  { s with items :=
      ["File name: " ++ s.file_name,
       "Title: " ++ s.title.getD "None",
       artistLineFold s.artists,
       "Album: " ++ s.album.getD "None"] }

/-- `Song::read_music_file` (`edit/app/song.rs`). -/
def Song.read_music_file (env : Env) (path : String) : Option Song :=
  match env.readTagAt path with
  | none => none
  | some tag =>
    match pathFileName path with
    | none => none
    | some name =>
      ((({ Song.default with file_path := path, file_name := name, tag := tag } :
          Song).init).map Song.populate_list_items)

/-- `Song::edit_title` (`edit/app/song.rs`). -/
def Song.edit_title (s : Song) (new_value : String) : Song :=
  { s with title := some new_value, tag := s.tag.setVorbis "TITLE" [new_value] }

/-- `Song::edit_artist` (`edit/app/song.rs` variant): splits on `:` and
keeps every segment, empty ones included (no `continue`). -/
def Song.edit_artist (s : Song) (new_value : String) : Song :=
  let artists := rustSplit ':' new_value
  { s with tag := s.tag.setVorbis "ARTIST" artists, artists := some artists }

/-- `Song::edit_album` (`edit/app/song.rs`). -/
def Song.edit_album (s : Song) (new_album_value : String) : Song :=
  { s with tag := s.tag.setVorbis "ALBUM" [new_album_value], album := some new_album_value }

/-- `Song::edit_filename` (`edit/app/song.rs`), identical to the
data-module variant. -/
def Song.edit_filename (env : Env) (s : Song) (new0 : String) :
    Option (Song × List LogEvent) :=
  let new_file_name := if rustContains new0 "flac" then new0 else new0 ++ ".flac"
  let new_file_path := setFileName s.file_path new_file_name
  match env.renameFile s.file_path new_file_path with
  | some _ =>
    let s1 := { s with file_name := new_file_name, file_path := new_file_path }
    match env.readTagAt s1.file_path with
    | some tag =>
      (({ s1 with tag := tag } : Song).init).map
        (fun s2 => (s2, [LogEvent.setFilenameLog new_file_name]))
    | none =>
      some (s1, [LogEvent.setFilenameLog new_file_name, LogEvent.tagReadErrorLog])
  | none => some (s, [LogEvent.renameErrorLog])

/-- `Song::edit` (`edit/app/song.rs`), identical structure to the
data-module variant. -/
def Song.edit (env : Env) (s : Song) (new_value : String) :
    Option (Song × List LogEvent) :=
  match s.state.selected.getD 10 with
  | 0 => (s.edit_filename env new_value).map
      (fun r => (r.1.populate_list_items, r.2))
  | 1 => some ((s.edit_title new_value).populate_list_items, [])
  | 2 => some ((s.edit_artist new_value).populate_list_items, [])
  | 3 => some ((s.edit_album new_value).populate_list_items, [])
  | 10 => some (s, [LogEvent.noIndexWarnLog])
  | _ => some (s, [])

/-- `Song::write_tag_changes` (`edit/app/song.rs`). -/
def Song.write_tag_changes (env : Env) (s : Song) : Option Unit :=
  env.writeTagAt s.file_path

/-- `Song::next` (`edit/app/song.rs`). -/
def Song.next (s : Song) : Option Song :=
  (selNext s.items.length s.state.selected).map (fun sel => { s with state := ⟨sel⟩ })

/-- `Song::previous` (`edit/app/song.rs`). -/
def Song.previous (s : Song) : Option Song :=
  (selPrevious s.items.length s.state.selected).map (fun sel => { s with state := ⟨sel⟩ })

/-- `InputBuffer` from `edit/inputs/mod.rs`. -/
structure InputBuffer where
  buffer : String
  index : Nat
  deriving DecidableEq, Repr

/-- `InputBuffer::new`. -/
def InputBuffer.new : InputBuffer := ⟨"", 0⟩

/-- `InputBuffer::push_char`. -/
def InputBuffer.push_char (b : InputBuffer) (c : Char) : InputBuffer :=
  ⟨b.buffer.push c, b.index + 1⟩

/-- `InputBuffer::pop`: drops the last character, decrementing the index
only when a character was present. -/
def InputBuffer.pop (b : InputBuffer) : InputBuffer :=
  if b.buffer.isEmpty then b else ⟨b.buffer.dropRight 1, b.index - 1⟩

/-- `InputBuffer::clear`: clears the buffer (the index is left as is). -/
def InputBuffer.clear (b : InputBuffer) : InputBuffer :=
  ⟨"", b.index⟩

/-- `InputBuffer::get_buffer_drain`: returns the contents and the drained
buffer. -/
def InputBuffer.get_buffer_drain (b : InputBuffer) : String × InputBuffer :=
  (b.buffer, ⟨"", b.index⟩)

/-- `AppActiveWidgetState` from `edit/app/mod.rs`. -/
inductive AppActiveWidgetState
  | DirListing
  | MetadataEditor
  | LogViewer
  | InputBar
  deriving DecidableEq, Repr

/-- `tui_logger::TuiWidgetEvent` (external log-viewer widget), one variant
per event the app forwards. -/
inductive TuiWidgetEvent
  | HideKey
  | FocusKey
  | UpKey
  | DownKey
  | LeftKey
  | RightKey
  | MinusKey
  | PlusKey
  | PrevPageKey
  | NextPageKey
  | EscapeKey
  | SpaceKey
  deriving DecidableEq, Repr

/-- `AppReturn` from `edit/app/mod.rs`. -/
inductive AppReturn
  | Exit
  | Continue
  deriving DecidableEq, Repr

/-- `App` from `edit/app/mod.rs` (the modal editor state machine); the
io channel is external and `logs_state` is modelled as the list of
forwarded events, newest first. -/
structure App where
  actions : Actions
  input_buffer : InputBuffer
  is_loading : Bool
  is_input : Bool
  current_app_widget : AppActiveWidgetState
  previous_app_widget : AppActiveWidgetState
  dirlist : DirListState
  current_selected_song : Song
  logs_state : List TuiWidgetEvent

/-- The action set installed by `enter_dirlisting_widget`. -/
def dirlistActions : Actions :=
  [.Quit, .SelectUp, .SelectDown, .Enter, .SwitchToLogWidget,
   .SwitchToPreviousWidget, .SwitchToDirListWidget]

/-- The action set installed by `enter_metadata_editor_widget`. -/
def metadataActions : Actions :=
  [.Quit, .SelectUp, .SelectDown, .Enter, .SwitchToLogWidget,
   .SwitchToPreviousWidget, .SaveTagsToFile, .SwitchToDirListWidget]

/-- The action set installed by `enter_log_viewer_widget`. -/
def logViewerActions : Actions :=
  [.LogDecreaseCapture, .LogExitPageMode, .LogIncreaseCapture,
   .LogIncreaseShown, .LogPageDown, .LogPageUp, .LogReduceShown,
   .LogSelectNextTarget, .LogSelectPreviousTarget, .LogToggleFocus,
   .LogToggleHideSelector, .LogToggleHideTargets, .SwitchToPreviousWidget]

/-- `App::enter_dirlisting_widget`. -/
def App.enter_dirlisting_widget (a : App) : App :=
  { a with previous_app_widget := a.current_app_widget,
           current_app_widget := .DirListing,
           actions := dirlistActions }

/-- `App::enter_metadata_editor_widget`: records the previous widget
(forcing `MetadataEditor` when coming from the input bar), switches focus
and actions, forces a record reload when coming from the directory list,
and loads the selected entry with
`Song::read_music_file(path).unwrap()` — both the path lookup and the
load are `unwrap`ed, so a failure panics (`none`). -/
def App.enter_metadata_editor_widget (env : Env) (a : App) : Option App :=
  let prev :=
    if a.current_app_widget = AppActiveWidgetState.InputBar then
      AppActiveWidgetState.MetadataEditor
    else a.current_app_widget
  let a1 := { a with previous_app_widget := prev,
                     current_app_widget := AppActiveWidgetState.MetadataEditor,
                     actions := metadataActions }
  let a2 :=
    if a1.previous_app_widget = AppActiveWidgetState.DirListing then
      { a1 with current_selected_song := { a1.current_selected_song with initialized := false } }
    else a1
  if a2.current_selected_song.initialized then some a2
  else
    match a2.dirlist.current_dir_file_paths.get? (a2.dirlist.state.selected.getD 0) with
    | none => none
    | some path =>
      (Song.read_music_file env path).map
        (fun song => { a2 with current_selected_song := song })

/-- `App::enter_log_viewer_widget`. -/
def App.enter_log_viewer_widget (a : App) : App :=
  { a with previous_app_widget := a.current_app_widget,
           current_app_widget := .LogViewer,
           actions := logViewerActions }

/-- `App::start_editing`. -/
def App.start_editing (a : App) : App :=
  { a with is_input := true,
           previous_app_widget := a.current_app_widget,
           current_app_widget := .InputBar }

/-- `App::stop_editing`: leaves input mode and, when the interrupted
widget was the metadata editor, commits the drained buffer through
`Song::edit` before re-entering it. -/
def App.stop_editing (env : Env) (a : App) : Option App :=
  let a1 := { a with is_input := false }
  match a1.previous_app_widget with
  | .DirListing => some a1.enter_dirlisting_widget
  | .MetadataEditor =>
    let drained := a1.input_buffer.get_buffer_drain
    match Song.edit env a1.current_selected_song drained.1 with
    | none => none
    | some r =>
      App.enter_metadata_editor_widget env
        { a1 with current_selected_song := r.1, input_buffer := drained.2 }
  | _ => some a1

/-- `App::do_action` (`edit/app/mod.rs`): in navigation mode resolves the
key through the contextual registry and executes the action; in input
mode routes the key into the buffer / commit / cancel handling. `none`
embeds a panic inside the step. -/
def App.do_action (env : Env) (a : App) (key : Key) : Option (App × AppReturn) :=
  match a.is_input with
  | false =>
    match Actions.find a.actions key with
    | some act =>
      match act with
      | .Quit => some (a, .Exit)
      | .LogToggleHideSelector =>
        some ({ a with logs_state := TuiWidgetEvent.HideKey :: a.logs_state }, .Continue)
      | .LogToggleFocus =>
        some ({ a with logs_state := TuiWidgetEvent.FocusKey :: a.logs_state }, .Continue)
      | .LogSelectPreviousTarget =>
        some ({ a with logs_state := TuiWidgetEvent.UpKey :: a.logs_state }, .Continue)
      | .LogSelectNextTarget =>
        some ({ a with logs_state := TuiWidgetEvent.DownKey :: a.logs_state }, .Continue)
      | .LogReduceShown =>
        some ({ a with logs_state := TuiWidgetEvent.LeftKey :: a.logs_state }, .Continue)
      | .LogIncreaseShown =>
        some ({ a with logs_state := TuiWidgetEvent.RightKey :: a.logs_state }, .Continue)
      | .LogDecreaseCapture =>
        some ({ a with logs_state := TuiWidgetEvent.MinusKey :: a.logs_state }, .Continue)
      | .LogIncreaseCapture =>
        some ({ a with logs_state := TuiWidgetEvent.PlusKey :: a.logs_state }, .Continue)
      | .LogPageUp =>
        some ({ a with logs_state := TuiWidgetEvent.PrevPageKey :: a.logs_state }, .Continue)
      | .LogPageDown =>
        some ({ a with logs_state := TuiWidgetEvent.NextPageKey :: a.logs_state }, .Continue)
      | .LogExitPageMode =>
        some ({ a with logs_state := TuiWidgetEvent.EscapeKey :: a.logs_state }, .Continue)
      | .LogToggleHideTargets =>
        some ({ a with logs_state := TuiWidgetEvent.SpaceKey :: a.logs_state }, .Continue)
      | .SwitchToLogWidget => some (a.enter_log_viewer_widget, .Continue)
      | .SwitchToPreviousWidget =>
        match a.previous_app_widget with
        | .DirListing => some (a.enter_dirlisting_widget, .Continue)
        | .MetadataEditor =>
          (a.enter_metadata_editor_widget env).map (fun a1 => (a1, .Continue))
        | _ => some (a.enter_dirlisting_widget, .Continue)
      | .SelectDown =>
        match a.current_app_widget with
        | .DirListing =>
          (a.dirlist.next).map (fun d => ({ a with dirlist := d }, .Continue))
        | .MetadataEditor =>
          (a.current_selected_song.next).map
            (fun s => ({ a with current_selected_song := s }, .Continue))
        | _ => some (a, .Continue)
      | .SelectUp =>
        match a.current_app_widget with
        | .DirListing =>
          (a.dirlist.previous).map (fun d => ({ a with dirlist := d }, .Continue))
        | .MetadataEditor =>
          (a.current_selected_song.previous).map
            (fun s => ({ a with current_selected_song := s }, .Continue))
        | _ => some (a, .Continue)
      | .Enter =>
        match a.current_app_widget with
        | .DirListing =>
          (a.enter_metadata_editor_widget env).map (fun a1 => (a1, .Continue))
        | .MetadataEditor => some (a.start_editing, .Continue)
        | _ => some (a, .Continue)
      | .SaveTagsToFile =>
        -- write_tag_changes only logs its result; the state is unchanged
        some (a, .Continue)
      | .SwitchToDirListWidget => some (a.enter_dirlisting_widget, .Continue)
    | none => some (a, .Continue)
  | true =>
    match key with
    | .Char c =>
      some ({ a with input_buffer := a.input_buffer.push_char c }, .Continue)
    | .Enter =>
      (a.stop_editing env).map
        (fun a1 => ({ a1 with input_buffer := a1.input_buffer.clear }, .Continue))
    | .Esc =>
      (App.enter_metadata_editor_widget env { a with is_input := false }).map
        (fun a1 => (a1, .Continue))
    | .Backspace =>
      some ({ a with input_buffer := a.input_buffer.pop }, .Continue)
    | _ => some (a, .Continue)

end EditTui

/-! ### Helper lemmas -/

/-- Splitting a separator-free character list yields that single segment. -/
theorem splitCharList_sepFree (sep : Char) (g : List Char) (h : sep ∉ g) :
    splitCharList sep g = [g] := by
  induction g with
  | nil => rfl
  | cons c g ih =>
    have hc : c ≠ sep := fun hcs => h (hcs ▸ List.mem_cons_self c g)
    have hg : sep ∉ g := fun hm => h (List.mem_cons_of_mem c hm)
    simp [splitCharList, hc, ih hg]

/-- Splitting `g ++ sep :: t` with `sep ∉ g` peels off the segment `g`. -/
theorem splitCharList_append_sep (sep : Char) (g t : List Char) (h : sep ∉ g) :
    splitCharList sep (g ++ sep :: t) = g :: splitCharList sep t := by
  induction g with
  | nil => simp [splitCharList]
  | cons c g ih =>
    have hc : c ≠ sep := fun hcs => h (hcs ▸ List.mem_cons_self c g)
    have hg : sep ∉ g := fun hm => h (List.mem_cons_of_mem c hm)
    simp [splitCharList, hc, ih hg]

/-- Round trip at the character-list level: splitting the join of a
non-empty list of separator-free segments recovers the segments. -/
theorem splitCharList_joinCharList (sep : Char) (gs : List (List Char))
    (hne : gs ≠ []) (hsep : ∀ g ∈ gs, sep ∉ g) :
    splitCharList sep (joinCharList sep gs) = gs := by
  induction gs with
  | nil => exact absurd rfl hne
  | cons g gs ih =>
    cases gs with
    | nil =>
      simpa [joinCharList] using
        splitCharList_sepFree sep g (hsep g (List.mem_cons_self g []))
    | cons g2 gs2 =>
      have h1 : sep ∉ g := hsep g (List.mem_cons_self _ _)
      have h2 : ∀ x ∈ g2 :: gs2, sep ∉ x := fun x hx =>
        hsep x (List.mem_cons_of_mem _ hx)
      have : joinCharList sep (g :: g2 :: gs2) =
          g ++ sep :: joinCharList sep (g2 :: gs2) := rfl
      rw [this, splitCharList_append_sep sep g _ h1,
        ih (by simp) h2]

/-- `String.mk` and `String.toList` are mutually inverse. -/
theorem toList_mk (cs : List Char) : (String.mk cs).toList = cs := rfl

/-- Rebuilding a string from its characters gives the string back. -/
theorem mk_toList (s : String) : String.mk s.toList = s := rfl

/-- Round trip at the string level: `rustSplit ':'` undoes `joinColon` on
a non-empty list of strings with no `:` in any element. -/
theorem rustSplit_joinColon (l : List String) (hne : l ≠ [])
    (hsep : ∀ x ∈ l, ':' ∉ x.toList) :
    rustSplit ':' (joinColon l) = l := by
  unfold rustSplit joinColon
  rw [toList_mk, splitCharList_joinCharList ':' (l.map String.toList)
    (by simpa using hne)
    (by intro g hg
        rcases List.mem_map.mp hg with ⟨x, hx, rfl⟩
        exact hsep x hx)]
  rw [List.map_map]
  exact List.map_id'' (fun x => mk_toList x) l

/-- `find?` on a filtered list is `find?` with the conjoined predicate. -/
theorem find?_filter_eq {α : Type} (l : List α) (p q : α → Bool) :
    (l.filter p).find? q = l.find? (fun x => p x && q x) := by
  induction l with
  | nil => rfl
  | cons c l ih =>
    cases hp : p c <;> cases hq : q c <;>
      simp [List.filter_cons, List.find?, hp, hq, ih]

/-- The element `find?` returns sits no later than any other element
satisfying the predicate. -/
theorem find?_first {α : Type} [DecidableEq α] (p : α → Bool) (l : List α)
    (a : α) (h : l.find? p = some a) (b : α) (hb : b ∈ l) (hpb : p b = true) :
    l.indexOf a ≤ l.indexOf b := by
  induction l with
  | nil => cases h
  | cons c l ih =>
    cases hp : p c with
    | true =>
      have : a = c := by
        rw [List.find?_cons_of_pos _ hp] at h
        exact (Option.some.injEq _ _).mp h.symm
      subst this
      simp [List.indexOf_cons_self]
    | false =>
      rw [List.find?_cons_of_neg _ (by simp [hp])] at h
      have hac : a ≠ c := by
        intro hEq
        have := List.find?_some h
        rw [hEq, hp] at this
        cases this
      have hbc : b ≠ c := by
        intro hEq
        rw [hEq, hp] at hpb
        cases hpb
      have hbl : b ∈ l := by
        cases List.mem_cons.mp hb with
        | inl hEq => exact absurd hEq hbc
        | inr h2 => exact h2
      rw [List.indexOf_cons_ne _ (Ne.symm hac), List.indexOf_cons_ne _ (Ne.symm hbc)]
      exact Nat.succ_le_succ (ih h hbl)

/-- Every action occurs in `Action::iter()`. -/
theorem mem_iterList (a : Action) : a ∈ Action.iterList := by
  cases a <;> simp [Action.iterList]

/-- On a non-empty list, advancing from a valid index is the successor
modulo the length. -/
theorem selNext_valid (len i : Nat) (h : i < len) :
    selNext len (some i) = some (some ((i + 1) % len)) := by
  have hlen : len ≠ 0 := Nat.not_eq_zero_of_lt h
  unfold selNext
  simp only [hlen, if_false]
  congr 2
  by_cases hge : i ≥ len - 1
  · have : i = len - 1 := Nat.le_antisymm (Nat.le_sub_one_of_lt h) hge
    subst this
    rw [Nat.sub_add_cancel (Nat.one_le_iff_ne_zero.mpr hlen), Nat.mod_self]
    simp [hge]
  · have : i + 1 < len := by omega
    simp [hge, Nat.mod_eq_of_lt this]

/-- On a non-empty list, retreating from a valid index stays in range. -/
theorem selPrevious_valid (len i : Nat) (h : i < len) :
    ∃ j, selPrevious len (some i) = some (some j) ∧ j < len := by
  have hlen : len ≠ 0 := Nat.not_eq_zero_of_lt h
  unfold selPrevious
  by_cases h0 : i = 0
  · exact ⟨len - 1, by simp [h0, hlen], by omega⟩
  · exact ⟨i - 1, by simp [h0], by omega⟩

/-- Validity of a selection with respect to a list length: absent, or an
index below the length. -/
def selValid (len : Nat) : Option Nat → Prop
  | none => True
  | some i => i < len

/-- A navigation input, `advance` (`next`) or `retreat` (`previous`). -/
inductive Move
  | adv
  | ret
  deriving DecidableEq, Repr

/-- Applying one navigation input to the directory list. -/
def DirListState.applyMove (d : DirListState) : Move → Option DirListState
  | .adv => d.next
  | .ret => d.previous

/-- Applying a sequence of navigation inputs to the directory list,
propagating panics. -/
def DirListState.applyMoves (d : DirListState) : List Move → Option DirListState
  | [] => some d
  | m :: ms => (d.applyMove m).bind (fun d1 => d1.applyMoves ms)

/-- Applying one navigation input to the metadata list of a track
record. -/
def Data.Song.applyMove (s : Data.Song) : Move → Option Data.Song
  | .adv => s.next
  | .ret => s.previous

/-- Applying a sequence of navigation inputs to the metadata list of a
track record. -/
def Data.Song.applyMoves (s : Data.Song) : List Move → Option Data.Song
  | [] => some s
  | m :: ms => (s.applyMove m).bind (fun s1 => s1.applyMoves ms)

/-- One `next` step from a valid state on a non-empty list succeeds and
stays valid. -/
theorem selNext_preserves (len : Nat) (sel : Option Nat) (hlen : len ≠ 0)
    (hv : selValid len sel) :
    ∃ sel', selNext len sel = some sel' ∧ selValid len sel' := by
  cases sel with
  | none =>
    exact ⟨some 0, rfl, Nat.pos_of_ne_zero hlen⟩
  | some i =>
    refine ⟨some ((i + 1) % len), selNext_valid len i hv, ?_⟩
    exact Nat.mod_lt _ (Nat.pos_of_ne_zero hlen)

/-- One `previous` step from a valid state on a non-empty list succeeds
and stays valid. -/
theorem selPrevious_preserves (len : Nat) (sel : Option Nat) (hlen : len ≠ 0)
    (hv : selValid len sel) :
    ∃ sel', selPrevious len sel = some sel' ∧ selValid len sel' := by
  cases sel with
  | none =>
    exact ⟨some 0, rfl, Nat.pos_of_ne_zero hlen⟩
  | some i =>
    obtain ⟨j, hj, hlt⟩ := selPrevious_valid len i hv
    exact ⟨some j, hj, hlt⟩

/-- The artists display line, written as a straight recursion: each
artist followed by `:`, except that an artist equal to the literal
`"None"` gets no separator. Spec-side restatement of the fold inside
`populate_list_items`. -/
def artistsRendered : List String → String
  | [] => ""
  | a :: rest => (a ++ (if a = "None" then "" else ":")) ++ artistsRendered rest

/-- The fold in `populate_list_items` computes `artistsRendered`. -/
theorem artistLineFold_eq (artists : Option (List String)) :
    artistLineFold artists =
      "Artists: " ++ artistsRendered (artists.getD nonePlaceholder) := by
  unfold artistLineFold
  generalize artists.getD nonePlaceholder = l
  suffices h : ∀ (l : List String) (acc : String),
      l.foldl (fun acc a => (acc ++ a) ++ (if a = "None" then "" else ":")) acc =
        acc ++ artistsRendered l by
    exact h l _
  intro l
  induction l with
  | nil => intro acc; simp [artistsRendered]
  | cons a rest ih =>
    intro acc
    rw [List.foldl_cons, ih]
    simp [artistsRendered, String.append_assoc]

/-- One navigation input at the level of the bare selection. -/
def applySelMove (len : Nat) (sel : Option Nat) : Move → Option (Option Nat)
  | .adv => selNext len sel
  | .ret => selPrevious len sel

/-- A sequence of navigation inputs at the level of the bare selection. -/
def applySelMoves (len : Nat) (sel : Option Nat) : List Move → Option (Option Nat)
  | [] => some sel
  | m :: ms => (applySelMove len sel m).bind (fun s => applySelMoves len s ms)

/-- `DirListState.applyMoves` only moves the selection; the item list is
untouched, so it factors through `applySelMoves` at the list's length. -/
theorem dirApplyMoves_factor (d : DirListState) (ms : List Move) :
    d.applyMoves ms =
      (applySelMoves d.current_dir_file_names.length d.state.selected ms).map
        (fun s => { d with state := ⟨s⟩ }) := by
  induction ms generalizing d with
  | nil =>
    cases d with
    | mk p ns ps st => cases st; rfl
  | cons m ms ih =>
    have hstep : d.applyMove m =
        (applySelMove d.current_dir_file_names.length d.state.selected m).map
          (fun s => { d with state := ⟨s⟩ }) := by
      cases m <;> rfl
    rw [DirListState.applyMoves, hstep]
    simp only [applySelMoves]
    cases h : applySelMove d.current_dir_file_names.length d.state.selected m with
    | none => simp
    | some s =>
      simpa using ih { d with state := ⟨s⟩ }

/-- `Data.Song.applyMoves` factors through `applySelMoves` at the length
of the metadata list. -/
theorem songApplyMoves_factor (s : Data.Song) (ms : List Move) :
    s.applyMoves ms =
      (applySelMoves s.items.length s.state.selected ms).map
        (fun sel => { s with state := ⟨sel⟩ }) := by
  induction ms generalizing s with
  | nil =>
    cases s with
    | mk i fp fn tg ti ar al ge yt th it st ini ms => cases st; rfl
  | cons m ms ih =>
    have hstep : s.applyMove m =
        (applySelMove s.items.length s.state.selected m).map
          (fun sel => { s with state := ⟨sel⟩ }) := by
      cases m <;> rfl
    rw [Data.Song.applyMoves, hstep]
    simp only [applySelMoves]
    cases h : applySelMove s.items.length s.state.selected m with
    | none => simp
    | some sel =>
      simpa using ih { s with state := ⟨sel⟩ }

/-- Every sequence of navigation inputs on a non-empty length keeps the
selection valid and never panics. -/
theorem applySelMoves_preserves (len : Nat) (hlen : len ≠ 0) :
    ∀ (ms : List Move) (sel : Option Nat), selValid len sel →
      ∃ sel', applySelMoves len sel ms = some sel' ∧ selValid len sel' := by
  intro ms
  induction ms with
  | nil => exact fun sel hv => ⟨sel, rfl, hv⟩
  | cons m ms ih =>
    intro sel hv
    have hstep : ∃ s1, applySelMove len sel m = some s1 ∧ selValid len s1 := by
      cases m with
      | adv => exact selNext_preserves len sel hlen hv
      | ret => exact selPrevious_preserves len sel hlen hv
    obtain ⟨s1, h1, hv1⟩ := hstep
    obtain ⟨s2, h2, hv2⟩ := ih s1 hv1
    exact ⟨s2, by simp [applySelMoves, h1, h2], hv2⟩

/-- `k` advances from a valid index land on the index shifted by `k`
modulo the length. -/
theorem applySelMoves_replicate_adv (len : Nat) :
    ∀ (k i : Nat), i < len →
      applySelMoves len (some i) (List.replicate k .adv) = some (some ((i + k) % len)) := by
  intro k
  induction k with
  | zero =>
    intro i hi
    simp [applySelMoves, Nat.mod_eq_of_lt hi]
  | succ k ih =>
    intro i hi
    have hlen0 : 0 < len := Nat.lt_of_le_of_lt (Nat.zero_le i) hi
    have h1 : (i + 1) % len < len := Nat.mod_lt _ hlen0
    calc applySelMoves len (some i) (List.replicate (k + 1) .adv)
        = (selNext len (some i)).bind
            (fun s => applySelMoves len s (List.replicate k .adv)) := by
          simp [List.replicate_succ, applySelMoves, applySelMove]
      _ = applySelMoves len (some ((i + 1) % len)) (List.replicate k .adv) := by
          rw [selNext_valid len i hi]; rfl
      _ = some (some (((i + 1) % len + k) % len)) := ih _ h1
      _ = some (some ((i + (k + 1)) % len)) := by
          rw [Nat.mod_add_mod]
          have harith : i + 1 + k = i + (k + 1) := by omega
          rw [harith]

/-- C3 counterexample: on the empty directory listing with no selection,
`next()` is not a no-op — it sets the selection to index 0, although the
claim says no selection is set on an empty list. -/
theorem advance_on_empty_list_sets_selection_cex :
    (DirListState.next ⟨"", [], [], ⟨none⟩⟩).map (fun d => d.state.selected) =
      some (some 0) ∧ (some 0 : Option Nat) ≠ none := by
  exact ⟨rfl, by simp⟩

/-- C3 (amended): on an empty `SelectableList` with absent selection,
`advance()` and `retreat()` are not no-ops: each sets the selection to
index 0 (so the empty-list/absent-selection invariant is not preserved);
this holds for both the directory list and the track-record metadata
list. -/
theorem advance_retreat_on_empty_list (d : DirListState) (s : Data.Song)
    (_hd : d.current_dir_file_names = []) (hds : d.state.selected = none)
    (_hs : s.items = []) (hss : s.state.selected = none) :
    d.next = some { d with state := ⟨some 0⟩ } ∧
    d.previous = some { d with state := ⟨some 0⟩ } ∧
    s.next = some { s with state := ⟨some 0⟩ } ∧
    s.previous = some { s with state := ⟨some 0⟩ } := by
  refine ⟨?_, ?_, ?_, ?_⟩ <;>
    simp [DirListState.next, DirListState.previous, Data.Song.next,
      Data.Song.previous, selNext, selPrevious, hds, hss]

/-- Witness for C3 (amended) at a concrete empty list. -/
theorem advance_retreat_on_empty_list_witness :
    DirListState.next ⟨"dir", [], [], ⟨none⟩⟩ = some ⟨"dir", [], [], ⟨some 0⟩⟩ ∧
    Data.Song.previous Data.Song.default =
      some { Data.Song.default with state := ⟨some 0⟩ } := by
  have h := advance_retreat_on_empty_list ⟨"dir", [], [], ⟨none⟩⟩
    Data.Song.default rfl rfl rfl rfl
  exact ⟨h.1, h.2.2.2⟩

/-- C4: on a non-empty list, (a) every sequence of `advance()`/`retreat()`
calls from a valid selection succeeds and keeps the selected index (when
present) in `[0, N)`, and (b) `N` consecutive `advance()` calls from any
selected index return to that index — for both the directory list and the
track-record metadata list. -/
theorem cursor_wraps_and_stays_in_range :
    (∀ (d : DirListState) (ms : List Move), d.current_dir_file_names ≠ [] →
       selValid d.current_dir_file_names.length d.state.selected →
       ∃ d', d.applyMoves ms = some d' ∧
         d'.current_dir_file_names = d.current_dir_file_names ∧
         selValid d'.current_dir_file_names.length d'.state.selected) ∧
    (∀ (d : DirListState) (i : Nat), d.state.selected = some i →
       i < d.current_dir_file_names.length →
       d.applyMoves (List.replicate d.current_dir_file_names.length .adv) =
         some { d with state := ⟨some i⟩ }) ∧
    (∀ (s : Data.Song) (ms : List Move), s.items ≠ [] →
       selValid s.items.length s.state.selected →
       ∃ s', s.applyMoves ms = some s' ∧ s'.items = s.items ∧
         selValid s'.items.length s'.state.selected) ∧
    (∀ (s : Data.Song) (i : Nat), s.state.selected = some i →
       i < s.items.length →
       s.applyMoves (List.replicate s.items.length .adv) =
         some { s with state := ⟨some i⟩ }) := by
  refine ⟨?_, ?_, ?_, ?_⟩
  · intro d ms hne hv
    have hlen : d.current_dir_file_names.length ≠ 0 := by
      simpa [List.length_eq_zero] using hne
    obtain ⟨sel', h1, h2⟩ := applySelMoves_preserves _ hlen ms d.state.selected hv
    exact ⟨{ d with state := ⟨sel'⟩ }, by rw [dirApplyMoves_factor, h1]; rfl,
      rfl, h2⟩
  · intro d i hsel hi
    rw [dirApplyMoves_factor, hsel,
      applySelMoves_replicate_adv _ _ _ hi, Nat.add_mod_right,
      Nat.mod_eq_of_lt hi]
    rfl
  · intro s ms hne hv
    have hlen : s.items.length ≠ 0 := by
      simpa [List.length_eq_zero] using hne
    obtain ⟨sel', h1, h2⟩ := applySelMoves_preserves _ hlen ms s.state.selected hv
    exact ⟨{ s with state := ⟨sel'⟩ }, by rw [songApplyMoves_factor, h1]; rfl,
      rfl, h2⟩
  · intro s i hsel hi
    rw [songApplyMoves_factor, hsel,
      applySelMoves_replicate_adv _ _ _ hi, Nat.add_mod_right,
      Nat.mod_eq_of_lt hi]
    rfl

/-- Witness for C4 at a concrete three-entry list: three advances from
index 1 come back to index 1. -/
theorem cursor_wraps_witness :
    DirListState.applyMoves ⟨"d", ["a", "b", "c"], ["pa", "pb", "pc"], ⟨some 1⟩⟩
        (List.replicate 3 .adv) =
      some ⟨"d", ["a", "b", "c"], ["pa", "pb", "pc"], ⟨some 1⟩⟩ := by
  have h := cursor_wraps_and_stays_in_range.2.1
    ⟨"d", ["a", "b", "c"], ["pa", "pb", "pc"], ⟨some 1⟩⟩ 1 rfl (by decide)
  exact h

/-- C5 counterexample: in the log-viewer registry,
`LogExitPageMode` is registered before `SwitchToPreviousWidget` and both
are bound to `Esc`, yet `find` resolves `Esc` to
`SwitchToPreviousWidget` — the first in enum-declaration order, not the
first-registered. -/
theorem resolve_not_registration_order_cex :
    Actions.find EditTui.logViewerActions Key.Esc =
      some Action.SwitchToPreviousWidget ∧
    resolveRegistrationOrder EditTui.logViewerActions Key.Esc =
      some Action.LogExitPageMode ∧
    Action.SwitchToPreviousWidget ≠ Action.LogExitPageMode := by
  exact ⟨by decide, by decide, by decide⟩

/-- C5 (amended): `resolve(key)` returns the first enabled action in the
fixed `Action` enum-declaration order (the `Action::iter()` order) whose
bound-key set contains the key — absent if no enabled action is bound to
it — so when two enabled actions share a key, the key resolves to the one
earlier in declaration order, regardless of registration order. -/
theorem resolve_first_in_enum_order (enabled : Actions) (k : Key) :
    Actions.find enabled k =
      Action.iterList.find? (fun a => enabled.contains a && a.keys.contains k) ∧
    (Actions.find enabled k = none ↔ ∀ a ∈ enabled, k ∉ a.keys) ∧
    (∀ a, Actions.find enabled k = some a →
      a ∈ enabled ∧ k ∈ a.keys ∧
      ∀ b ∈ enabled, k ∈ b.keys →
        Action.iterList.indexOf a ≤ Action.iterList.indexOf b) := by
  have h0 : Actions.find enabled k =
      Action.iterList.find? (fun a => enabled.contains a && a.keys.contains k) :=
    find?_filter_eq _ _ _
  refine ⟨h0, ?_, ?_⟩
  · rw [h0, List.find?_eq_none]
    constructor
    · intro h a ha hk
      have h2 := h a (mem_iterList a)
      simp [List.elem_iff, ha, hk] at h2
    · intro h a _
      simp only [Bool.and_eq_true, not_and]
      intro ha
      have hmem : a ∈ enabled := List.elem_iff.mp ha
      intro hkk
      exact h a hmem (List.elem_iff.mp hkk)
  · intro a hfind
    rw [h0] at hfind
    have hp := List.find?_some hfind
    simp only [Bool.and_eq_true] at hp
    refine ⟨List.elem_iff.mp hp.1, List.elem_iff.mp hp.2, ?_⟩
    intro b hb hkb
    refine find?_first _ _ _ hfind b (mem_iterList b) ?_
    simp only [Bool.and_eq_true]
    exact ⟨by simp [List.elem_iff, hb], by simp [List.elem_iff, hkb]⟩

/-- Witness for C5 (amended): applied to the log-viewer registry and
`Esc`, the resolved action is enabled, bound to `Esc`, and no later in
enum order than `LogExitPageMode`. -/
theorem resolve_first_in_enum_order_witness :
    Action.SwitchToPreviousWidget ∈ EditTui.logViewerActions ∧
    Key.Esc ∈ Action.SwitchToPreviousWidget.keys ∧
    Action.iterList.indexOf Action.SwitchToPreviousWidget ≤
      Action.iterList.indexOf Action.LogExitPageMode := by
  have h := (resolve_first_in_enum_order EditTui.logViewerActions Key.Esc).2.2
    Action.SwitchToPreviousWidget (by decide)
  exact ⟨h.1, h.2.1, h.2.2 Action.LogExitPageMode (by decide) (by decide)⟩

/-- C6 counterexample: the `edit/app/song.rs` variant of `edit_artist`
keeps empty segments: on `"a::b"` it stores `["a", "", "b"]`, not the
non-empty segments `["a", "b"]` the claim demands. -/
theorem edit_artist_keeps_empty_segments_cex :
    (EditTui.Song.edit_artist EditTui.Song.default "a::b").artists =
      some ["a", "", "b"] ∧
    (some ["a", "", "b"] : Option (List String)) ≠ some ["a", "b"] := by
  exact ⟨by decide, by decide⟩

/-- C6 (amended): the `data/song.rs` variant of `edit_artist` stores
exactly the non-empty segments of the input split on `:` (in order, with
the tag updated to the same list), while the `edit/app/song.rs` variant
stores every segment, empty ones included. -/
theorem edit_artist_split_behaviour (s : Data.Song) (sE : EditTui.Song)
    (v : String) :
    (∃ l, (s.edit_artist v).artists = some l ∧
       (s.edit_artist v).tag = s.tag.setVorbis "ARTIST" l ∧
       l.Sublist (rustSplit ':' v) ∧
       (∀ x ∈ l, x ≠ "") ∧
       (∀ x ∈ rustSplit ':' v, x ≠ "" → x ∈ l)) ∧
    (sE.edit_artist v).artists = some (rustSplit ':' v) ∧
    (sE.edit_artist v).tag = sE.tag.setVorbis "ARTIST" (rustSplit ':' v) := by
  refine ⟨⟨(rustSplit ':' v).filter (fun a => !a.isEmpty), rfl, rfl,
    List.filter_sublist _, ?_, ?_⟩, rfl, rfl⟩
  · intro x hx hxe
    have h2 := (List.mem_filter.mp hx).2
    subst hxe
    simp [String.isEmpty] at h2
  · intro x hx hne
    refine List.mem_filter.mpr ⟨hx, ?_⟩
    cases he : x.isEmpty
    · rfl
    · exact absurd ((String.isEmpty_iff x).mp he) hne

/-- Witness for C6 (amended) at the input `"a::b"`: the data-module
variant stores `["a", "b"]`. -/
theorem edit_artist_split_behaviour_witness :
    "" ∈ rustSplit ':' "a::b" ∧
    (Data.Song.edit_artist Data.Song.default "a::b").artists = some ["a", "b"] := by
  have h := (edit_artist_split_behaviour Data.Song.default
    EditTui.Song.default "a::b").1
  obtain ⟨l, hl, _, _, hnon, _⟩ := h
  refine ⟨by decide, ?_⟩
  have : l = ["a", "b"] := by
    have hval : (Data.Song.edit_artist Data.Song.default "a::b").artists =
        some ["a", "b"] := by decide
    rw [hl] at hval
    exact (Option.some.injEq _ _).mp hval.symm |>.symm
  rw [hl, this]

/-- C7 counterexample: with artist list `["a", "b"]` the rendered artists
line is `"Artists: a:b:"` — each artist is followed by a `:` separator,
including the last — which differs from the claimed join
`"Artists: a:b"`. -/
theorem display_lines_trailing_colon_cex :
    (Data.Song.populate_list_items
        { Data.Song.default with artists := some ["a", "b"] }).items.get? 2 =
      some "Artists: a:b:" ∧
    "Artists: " ++ joinColon ["a", "b"] = "Artists: a:b" ∧
    ("Artists: a:b:" : String) ≠ "Artists: a:b" := by
  exact ⟨by decide, by decide, by decide⟩

/-- C7 (amended): `display_lines` is the deterministic function of the
other fields, in the fixed order [display name, title, artists, album]
with the fixed labels, absent title/album rendered `"None"` and an absent
artist list rendered via the `["None"]` placeholder; the artists line is
each artist followed by a `:` separator — a trailing separator included —
except that an artist equal to the literal `"None"` gets no separator.
Both record variants agree. -/
theorem display_lines_fixed_order (s : Data.Song) (sE : EditTui.Song) :
    (s.populate_list_items).items =
      ["File name: " ++ s.file_name,
       "Title: " ++ s.title.getD "None",
       "Artists: " ++ artistsRendered (s.artists.getD nonePlaceholder),
       "Album: " ++ s.album.getD "None"] ∧
    (EditTui.Song.populate_list_items sE).items =
      ["File name: " ++ sE.file_name,
       "Title: " ++ sE.title.getD "None",
       "Artists: " ++ artistsRendered (sE.artists.getD nonePlaceholder),
       "Album: " ++ sE.album.getD "None"] := by
  constructor
  · simp [Data.Song.populate_list_items, artistLineFold_eq]
  · simp [EditTui.Song.populate_list_items, artistLineFold_eq]

/-- A concrete environment in which every external operation fails. -/
def envAllFail : Env :=
  ⟨fun _ => none, fun _ _ => none, fun _ => none⟩

/-- C8 counterexample: (a) a record with an absent title but a perfectly
good artist list `["a"]` makes `from_database` panic (`none`), so no
round-tripped record exists; (b) a record whose artist list is the
non-empty, colon-free `[""]` round-trips to a record with artist list
`[]`, failing `equate`. -/
theorem roundtrip_fails_cex :
    Data.Song.from_database none "" "" none (some (joinColon ["a"])) none
      none none none = none ∧
    ((Data.Song.from_database none "" "" (some "t") (some (joinColon [""])) none
        none none none).map
      (fun s' => Data.Song.equate
        { Data.Song.default with title := some "t", artists := some [""] } s')) =
      some false := by
  exact ⟨by decide, by decide⟩

/-- C8 (amended): for a record with a present title and a non-empty artist
list whose artists are colon-free and non-empty, `from_database` applied
to the record's scalar fields (artists joined with `:`) yields a record
that `equate` accepts against the original. -/
theorem from_database_roundtrip (s : Data.Song) (l : List String) (t : String)
    (hart : s.artists = some l) (hne : l ≠ [])
    (hsep : ∀ x ∈ l, ':' ∉ x.toList)
    (hnonempty : ∀ x ∈ l, x ≠ "")
    (ht : s.title = some t) :
    ∃ s', Data.Song.from_database s.id s.file_path s.file_name s.title
        (some (joinColon l)) s.album s.genre s.youtube_id s.thumbnail_url =
        some s' ∧ Data.Song.equate s s' = true := by
  have hfilter : (rustSplit ':' (joinColon l)).filter (fun a => !a.isEmpty) = l := by
    rw [rustSplit_joinColon l hne hsep]
    apply List.filter_eq_self.mpr
    intro x hx
    cases he : x.isEmpty
    · rfl
    · exact absurd ((String.isEmpty_iff x).mp he) (hnonempty x hx)
  unfold Data.Song.from_database
  simp only [Option.map_some, Option.map_some', hfilter, ht]
  refine ⟨_, rfl, ?_⟩
  simp [Data.Song.equate, Data.Song.populate_list_items, hart, ht]

/-- Witness for C8 (amended) at the concrete record with title `"t"` and
artists `["x", "y"]`. -/
theorem from_database_roundtrip_witness :
    ∃ s', Data.Song.from_database none "" "" (some "t")
        (some (joinColon ["x", "y"])) none none none none = some s' ∧
      Data.Song.equate
        { Data.Song.default with title := some "t", artists := some ["x", "y"] }
        s' = true := by
  exact from_database_roundtrip
    { Data.Song.default with title := some "t", artists := some ["x", "y"] }
    ["x", "y"] "t" rfl (by decide) (by decide) (by decide) rfl

/-- C10: when the metadata field list has no selected index, committing
buffered text through `Song::edit` returns the record entirely unchanged
(no field, tag content or display line mutated) and only emits the
warning log event — in both record variants. -/
theorem edit_without_selection_is_noop (env : Env) (s : Data.Song)
    (sE : EditTui.Song) (v : String) (hs : s.state.selected = none)
    (hsE : sE.state.selected = none) :
    Data.Song.edit env s v = some (s, [LogEvent.noIndexWarnLog]) ∧
    EditTui.Song.edit env sE v = some (sE, [LogEvent.noIndexWarnLog]) := by
  constructor
  · unfold Data.Song.edit
    rw [hs]
    rfl
  · unfold EditTui.Song.edit
    rw [hsE]
    rfl

/-- Witness for C10 at the default records. -/
theorem edit_without_selection_is_noop_witness :
    Data.Song.edit envAllFail Data.Song.default "x" =
      some (Data.Song.default, [LogEvent.noIndexWarnLog]) ∧
    EditTui.Song.edit envAllFail EditTui.Song.default "x" =
      some (EditTui.Song.default, [LogEvent.noIndexWarnLog]) := by
  exact edit_without_selection_is_noop envAllFail Data.Song.default
    EditTui.Song.default "x" rfl rfl

/-- C9: committing a new display name (selected index 0): if the
filesystem rename fails, a rename error is reported and the record's
name, path and all tag-derived fields are unchanged; if the rename
succeeds but the tag re-read fails, a tag-read error is reported while
the new name and path are kept and the previous tag content stays in
memory. -/
theorem rename_error_handling (env : Env) (s : Data.Song) (v nf np : String)
    (h0 : s.state.selected = some 0)
    (hnf : nf = if rustContains v "flac" then v else v ++ ".flac")
    (hnp : np = setFileName s.file_path nf) :
    (env.renameFile s.file_path np = none →
      ∃ s', Data.Song.edit env s v = some (s', [LogEvent.renameErrorLog]) ∧
        s'.file_name = s.file_name ∧ s'.file_path = s.file_path ∧
        s'.tag = s.tag ∧ s'.title = s.title ∧ s'.artists = s.artists ∧
        s'.album = s.album) ∧
    (env.renameFile s.file_path np = some () → env.readTagAt np = none →
      ∃ s', Data.Song.edit env s v =
          some (s', [LogEvent.setFilenameLog nf, LogEvent.tagReadErrorLog]) ∧
        s'.file_name = nf ∧ s'.file_path = np ∧
        s'.tag = s.tag ∧ s'.title = s.title ∧ s'.artists = s.artists ∧
        s'.album = s.album) := by
  subst hnf
  subst hnp
  have hedit : Data.Song.edit env s v =
      (Data.Song.edit_filename env s v).map
        (fun r => (r.1.populate_list_items, r.2)) := by
    unfold Data.Song.edit
    rw [h0]
    rfl
  constructor
  · intro hren
    have hfn : Data.Song.edit_filename env s v =
        some (s, [LogEvent.renameErrorLog]) := by
      simp only [Data.Song.edit_filename, hren]
    rw [hedit, hfn]
    exact ⟨s.populate_list_items, rfl, rfl, rfl, rfl, rfl, rfl, rfl⟩
  · intro hren hread
    have hfn : Data.Song.edit_filename env s v =
        some ({ s with
            file_name := if rustContains v "flac" then v else v ++ ".flac",
            file_path := setFileName s.file_path
              (if rustContains v "flac" then v else v ++ ".flac") },
          [LogEvent.setFilenameLog
            (if rustContains v "flac" then v else v ++ ".flac"),
           LogEvent.tagReadErrorLog]) := by
      simp only [Data.Song.edit_filename, hren, hread]
    rw [hedit, hfn]
    exact ⟨_, rfl, rfl, rfl, rfl, rfl, rfl, rfl⟩

/-- Witness for C9 against an environment whose rename always fails: the
record comes back with its name, path and tag fields intact and a rename
error reported. -/
theorem rename_error_handling_witness :
    ∃ s', Data.Song.edit envAllFail
        { Data.Song.default with state := ⟨some 0⟩ } "n.flac" =
        some (s', [LogEvent.renameErrorLog]) ∧
      s'.file_name = "" ∧ s'.file_path = "" ∧
      s'.tag = Tag.new ∧ s'.title = none ∧ s'.artists = none ∧
      s'.album = none := by
  have h := (rename_error_handling envAllFail
    { Data.Song.default with state := ⟨some 0⟩ } "n.flac" "n.flac" "n.flac"
    rfl (by decide) (by decide)).1 rfl
  exact h

/-- C2 evaluation at the failing input: in input-capture mode with buffer
`"a"`, pressing `Esc` leaves input mode but keeps the buffer contents
(`"a"`, not empty) — the loaded record is untouched. The code's own
comment says the buffer is cleared here, but only `is_input` is reset. -/
theorem esc_does_not_clear_buffer :
    (EditTui.App.do_action envAllFail
        { actions := EditTui.metadataActions,
          input_buffer := ⟨"a", 1⟩, is_loading := false, is_input := true,
          current_app_widget := .InputBar,
          previous_app_widget := .MetadataEditor,
          dirlist := ⟨"", [], [], ⟨none⟩⟩,
          current_selected_song := { EditTui.Song.default with initialized := true },
          logs_state := [] }
        Key.Esc).map
      (fun r => (r.1.input_buffer.buffer, r.1.is_input, r.1.current_app_widget,
        r.1.current_selected_song, r.2)) =
      some ("a", false, EditTui.AppActiveWidgetState.MetadataEditor,
        { EditTui.Song.default with initialized := true },
        EditTui.AppReturn.Continue) := by
  rfl

/-- C1 counterexample: in `Browsing` with a selected entry whose tag read
fails, `Enter` produces no result at all (the embedded `unwrap` panic) —
the failure is not returned to the caller of the dispatch loop, and no
post-step state (Browsing or otherwise) survives. -/
theorem browse_enter_failed_load_no_result_cex :
    EditTui.App.do_action envAllFail
      { actions := EditTui.dirlistActions, input_buffer := ⟨"", 0⟩,
        is_loading := false, is_input := false,
        current_app_widget := .DirListing, previous_app_widget := .DirListing,
        dirlist := ⟨"d", ["x.flac"], ["d/x.flac"], ⟨some 0⟩⟩,
        current_selected_song := EditTui.Song.default, logs_state := [] }
      Key.Enter = none := by
  rfl

/-- C1 (amended): when the machine is in `Browsing` (with the Browsing
action set installed) and receives `Enter`, and the tag read for the
selected entry's path fails, `do_action` panics — the transition function
has no result, so the failure is not returned as a value and the focus
change to `Editing` (made before the load) is lost with the rest of the
state. -/
theorem browse_enter_failed_load_panics (env : Env) (a : EditTui.App)
    (path : String)
    (hin : a.is_input = false)
    (hw : a.current_app_widget = .DirListing)
    (hacts : a.actions = EditTui.dirlistActions)
    (hpath : a.dirlist.current_dir_file_paths.get?
      (a.dirlist.state.selected.getD 0) = some path)
    (hread : env.readTagAt path = none) :
    EditTui.App.do_action env a Key.Enter = none := by
  have hfind : Actions.find EditTui.dirlistActions Key.Enter =
      some Action.Enter := by decide
  have hmeta : EditTui.App.enter_metadata_editor_widget env a = none := by
    simp +decide only [EditTui.App.enter_metadata_editor_widget, hw,
      EditTui.Song.read_music_file, hread, hpath, ite_true, ite_false,
      Option.map_none']
  simp +decide only [EditTui.App.do_action, hin, hacts, hfind, hw, hmeta,
    ite_true, ite_false, Option.map_none']

/-- Witness for C1 (amended) at a concrete two-entry listing with entry 1
selected and a failing tag read. -/
theorem browse_enter_failed_load_panics_witness :
    EditTui.App.do_action envAllFail
      { actions := EditTui.dirlistActions, input_buffer := ⟨"", 0⟩,
        is_loading := false, is_input := false,
        current_app_widget := .DirListing, previous_app_widget := .DirListing,
        dirlist := ⟨"d", ["a.flac", "b.flac"], ["d/a.flac", "d/b.flac"],
          ⟨some 1⟩⟩,
        current_selected_song := EditTui.Song.default, logs_state := [] }
      Key.Enter = none := by
  exact browse_enter_failed_load_panics envAllFail _ "d/b.flac"
    rfl rfl rfl rfl rfl

end MusicManager
